import Mathlib

set_option maxHeartbeats 1000000
set_option maxRecDepth 4000

/-
  Shallow embedding of the rust-aprs ingestion pipeline (src/utils.rs,
  src/data.rs, src/client.rs, src/sqlite.rs, src/mariadb.rs, src/main.rs).

  Conventions: Rust strings are `List Char`; Rust `u16` arithmetic is `Nat`
  with explicit reduction modulo 2^16 where the width matters; the external
  `aprs_parser` decoder, the `Uuid::new_v4()` source and the `Utc::now()`
  clock are passed as explicit parameters; fallible paths return `Option`
  or carry an explicit error field.
-/

/-! ### utils.rs: generate_passcode -/

/-- Rust `str::to_uppercase`, restricted to the ASCII range over which the
program applies it (amateur-radio callsigns are ASCII). -/
def asciiUpper (c : Char) : Char :=
  if 'a' ≤ c ∧ c ≤ 'z' then Char.ofNat (c.toNat - 32) else c

/-- `callsign.split('-').next()`: the segment before the first `'-'`.
`split` always yields a first segment, so the Rust `?` never fires. -/
def stripSSID (callsign : List Char) : List Char :=
  callsign.takeWhile (fun c => c != '-')

/-- The XOR loop of `generate_passcode`: the flag `high` alternates starting
at `true`; `(c as u16) << 8` is `c.toNat % 2^16 * 2^8 % 2^16` and `c as u16`
is `c.toNat % 2^16`. -/
def passcodeLoop : Bool → Nat → List Char → Nat
  | _, acc, [] => acc
  | true, acc, c :: rest =>
      passcodeLoop false (acc ^^^ (c.toNat % 65536 * 256 % 65536)) rest
  | false, acc, c :: rest =>
      passcodeLoop true (acc ^^^ (c.toNat % 65536)) rest

/-- utils.rs `generate_passcode`: accumulator initialised to `0x73E2`, SSID
stripped, remainder uppercased, XOR loop, decimal string of the result. -/
def generate_passcode (callsign : List Char) : Option (List Char) :=
  some ((Nat.repr (passcodeLoop true 0x73E2 ((stripSSID callsign).map asciiUpper))).data)

/-! ### data.rs: the internal data model -/

/-- Opaque stand-in for a Rust `f64` payload: the pipeline only ever copies
these values from the decoder output into a SQL bind, never computes with
them, so the bit pattern is carried as an abstract token. -/
structure F64 where
  bits : Nat
  deriving DecidableEq

/-- data.rs `Timestamp`. -/
inductive Timestamp where
  | DDHHMM (day hour minute : Nat)
  | HHMMSS (hour minute second : Nat)
  | Unsupported (bytes : List Nat)
  deriving DecidableEq

/-- data.rs `ParsedAprsMessage`. -/
structure ParsedAprsMessage where
  «to» : List Char
  addressee : List Char
  text : List Char
  id : Option (List Nat)
  deriving DecidableEq

/-- data.rs `ParsedAprsPosition`. -/
structure ParsedAprsPosition where
  «to» : List Char
  timestamp : Option Timestamp
  messaging_supported : Bool
  latitude : F64
  longitude : F64
  precision : F64
  symbol_table : Char
  symbol_code : Char
  comment : List Char
  cst : List Char
  deriving DecidableEq

/-- data.rs `ParsedAprsStatus`. -/
structure ParsedAprsStatus where
  «to» : List Char
  timestamp : Option Timestamp
  comment : List Char
  deriving DecidableEq

/-- data.rs `ParsedAprsMicE`. -/
structure ParsedAprsMicE where
  latitude : F64
  longitude : F64
  precision : F64
  message : List Char
  speed : Nat
  course : Nat
  symbol_table : Char
  symbol_code : Char
  comment : List Char
  current : Bool
  deriving DecidableEq

/-- data.rs `ParsedAprsData`. -/
inductive ParsedAprsData where
  | Position (p : ParsedAprsPosition)
  | Message (m : ParsedAprsMessage)
  | Status (s : ParsedAprsStatus)
  | MicE (e : ParsedAprsMicE)
  | Unknown (raw : List Char)
  deriving DecidableEq

/-- data.rs `ParsedLine`. -/
structure ParsedLine where
  «from» : List Char
  via : List (List Char)
  data : ParsedAprsData
  deriving DecidableEq

/-- Abstract output of the external `aprs_parser` decoder: the source
callsign, the textual forms of the `via` entries in received order, and the
payload already mapped into the internal variants. -/
structure AprsPacketM where
  «from» : List Char
  via : List (List Char)
  data : ParsedAprsData

/-- utils.rs `parse_line` over the abstract decoder result: a grammar failure
propagates (`none`); the `via` entries are pushed in received order; an
`Unknown` payload has its content replaced by the raw input line. -/
def parse_line (decoded : Option AprsPacketM) (raw : List Char) : Option ParsedLine :=
  match decoded with
  | none => none
  | some p =>
      some { «from» := p.«from», via := p.via,
             data := match p.data with
                     | .Unknown _ => .Unknown raw
                     | d => d }

/-! ### client.rs: AprsClient::read_line as a step on the error_count state -/

/-- What one poll of the framed socket can yield: a complete line, a codec
error (e.g. an over-length line), or end of stream (`None`). -/
inductive ReadInput where
  | line (s : List Char)
  | frameErr
  | eos
  deriving DecidableEq

/-- The outcome `read_line` reports for one poll. `fatal` is the
`panic!` fired when `error_count` exceeds 100. -/
inductive ReadResult where
  | ok (pl : ParsedLine)
  | commentErr
  | decodeErr
  | frameErr
  | eosErr
  | fatal
  deriving DecidableEq

/-- `x.as_str().get(..1) == Some("#")`: true iff the first character of the
line is the comment marker. -/
def isCommentLine : List Char → Bool
  | '#' :: _ => true
  | _ => false

/-- client.rs `AprsClient::read_line`, as a transition on the `error_count`
cell: a comment line is rejected without touching the count; any other line
resets the count to zero and is handed to `parse_line` (abstracted by
`decode`); a codec error leaves the count alone; end of stream increments the
count and panics once it exceeds 100. -/
def read_line (decode : List Char → Option ParsedLine) (error_count : Nat)
    (i : ReadInput) : Nat × ReadResult :=
  match i with
  | .line s =>
      if isCommentLine s then (error_count, .commentErr)
      else
        match decode s with
        | some pl => (0, .ok pl)
        | none => (0, .decodeErr)
  | .frameErr => (error_count, .frameErr)
  | .eos =>
      if error_count + 1 > 100 then (error_count + 1, .fatal)
      else (error_count + 1, .eosErr)

/-- Iterated `read_line` over a sequence of socket events; `none` means the
panic fired and the process died. -/
def runReads (decode : List Char → Option ParsedLine) :
    Nat → List ReadInput → Option Nat
  | c, [] => some c
  | c, i :: rest =>
      match read_line decode c i with
      | (_, .fatal) => none
      | (c2, _) => runReads decode c2 rest

/-! ### main.rs: main_loop (producer side) -/

/-- State of the read loop: the client's `error_count`, the dispatcher queue
contents in send order, and the `parsed` counter. -/
structure MainState where
  errorCount : Nat
  queue : List ParsedLine
  parsed : Nat
  deriving DecidableEq

/-- One iteration of main.rs `main_loop` with no interrupt pending: read a
line; on error log it and continue; on success send the line to the
dispatcher queue and then increment the parsed counter.  Storage is never
touched here.  `none`: the `read_line` panic killed the process. -/
def main_loop_step (decode : List Char → Option ParsedLine) (st : MainState)
    (i : ReadInput) : Option MainState :=
  match read_line decode st.errorCount i with
  | (_, .fatal) => none
  | (c2, .ok pl) => some ⟨c2, st.queue ++ [pl], st.parsed + 1⟩
  | (c2, _) => some ⟨c2, st.queue, st.parsed⟩

/-- main.rs `main_loop` run over a finite sequence of socket events (the
interrupt arriving at the end of the sequence). -/
def main_loop_run (decode : List Char → Option ParsedLine) :
    MainState → List ReadInput → Option MainState
  | st, [] => some st
  | st, i :: rest =>
      match main_loop_step decode st i with
      | none => none
      | some st2 => main_loop_run decode st2 rest

/-- The successfully decoded non-comment lines of an event sequence, in
order: exactly the items `main_loop` sends to the dispatcher. -/
def goodLines (decode : List Char → Option ParsedLine) :
    List ReadInput → List ParsedLine
  | [] => []
  | .line s :: rest =>
      if isCommentLine s then goodLines decode rest
      else
        match decode s with
        | some pl => pl :: goodLines decode rest
        | none => goodLines decode rest
  | .frameErr :: rest => goodLines decode rest
  | .eos :: rest => goodLines decode rest

/-- Number of end-of-stream events in a sequence. -/
def countEos : List ReadInput → Nat
  | [] => 0
  | .eos :: rest => countEos rest + 1
  | _ :: rest => countEos rest

/-! ### data.rs: Timestamp rendering (the chrono calls modelled explicitly) -/

/-- The UTC instant supplied by `Utc::now()`. -/
structure UtcNow where
  year : Nat
  month : Nat
  day : Nat
  hour : Nat
  minute : Nat
  second : Nat
  nanos : Nat
  deriving DecidableEq

/-- Gregorian leap-year rule (as used by chrono). -/
def isLeapYear (y : Nat) : Bool :=
  (y % 4 == 0 && y % 100 != 0) || y % 400 == 0

/-- Month lengths of year `y`. -/
def monthLengths (y : Nat) : List Nat :=
  [31, if isLeapYear y then 29 else 28, 31, 30, 31, 30, 31, 31, 30, 31, 30, 31]

/-- chrono `%j` resolution: convert a 1-based day-of-year into (month, day);
`none` when the ordinal is out of range, in which case the chrono parse
fails. -/
def doyToMonthDay : List Nat → Nat → Nat → Option (Nat × Nat)
  | [], _, _ => none
  | len :: rest, m, d =>
      if d = 0 then none
      else if d ≤ len then some (m, d)
      else doyToMonthDay rest (m + 1) (d - len)

/-- Zero-padded decimal rendering of width `w` (chrono numeric fields). -/
def pad (w n : Nat) : List Char :=
  List.replicate (w - (Nat.repr n).length) '0' ++ (Nat.repr n).data

/-- chrono `%.f`: empty for zero nanoseconds, otherwise a dot followed by 3,
6 or 9 digits (the shortest exact form). -/
def dotF (nanos : Nat) : List Char :=
  if nanos = 0 then []
  else if nanos % 1000000 = 0 then '.' :: pad 3 (nanos / 1000000)
  else if nanos % 1000 = 0 then '.' :: pad 6 (nanos / 1000)
  else '.' :: pad 9 nanos

/-- chrono `%+` (RFC 3339) of a UTC civil time at offset +00:00. -/
def fmtPlusParts (y mo d h mi s nanos : Nat) : List Char :=
  pad 4 y ++ '-' :: pad 2 mo ++ '-' :: pad 2 d ++ 'T' :: pad 2 h ++
    ':' :: pad 2 mi ++ ':' :: pad 2 s ++ dotF nanos ++ "+00:00".data

/-- chrono `%Y-%m-%d %H:%M:%S%.6f` (the MariaDB DATETIME(6) text form). -/
def fmtSqlParts (y mo d h mi s nanos : Nat) : List Char :=
  pad 4 y ++ '-' :: pad 2 mo ++ '-' :: pad 2 d ++ ' ' :: pad 2 h ++
    ':' :: pad 2 mi ++ ':' :: pad 2 s ++ '.' :: pad 6 (nanos / 1000)

/-- data.rs `Timestamp::fmt_string`.  `DDHHMM(d,h,m)` is printed into
`"{year}-{d} {h}:{m}:00 +0000"` and parsed back with `"%Y-%j %H:%M:%S %z"`,
so the day-of-month value `d` is read as a day-of-YEAR of the current year;
`HHMMSS` takes the current year, month and day.  A failed parse (out-of-range
field) yields the empty string, as does `Unsupported`. -/
def Timestamp.fmt_string (now : UtcNow) : Timestamp → List Char
  | .DDHHMM d h m =>
      if h ≤ 23 ∧ m ≤ 59 then
        match doyToMonthDay (monthLengths now.year) 1 d with
        | some (mo, dd) => fmtPlusParts now.year mo dd h m 0 0
        | none => []
      else []
  | .HHMMSS h m s =>
      if h ≤ 23 ∧ m ≤ 59 ∧ s ≤ 60 then
        fmtPlusParts now.year now.month now.day h m s 0
      else []
  | .Unsupported _ => []

/-- data.rs `Timestamp::mariadb_string`: the same parse as `fmt_string`
(including the `%j` day-of-year reading of `DDHHMM`), rendered with
`"%Y-%m-%d %H:%M:%S%.6f"`. -/
def Timestamp.mariadb_string (now : UtcNow) : Timestamp → List Char
  | .DDHHMM d h m =>
      if h ≤ 23 ∧ m ≤ 59 then
        match doyToMonthDay (monthLengths now.year) 1 d with
        | some (mo, dd) => fmtSqlParts now.year mo dd h m 0 0
        | none => []
      else []
  | .HHMMSS h m s =>
      if h ≤ 23 ∧ m ≤ 59 ∧ s ≤ 60 then
        fmtSqlParts now.year now.month now.day h m s 0
      else []
  | .Unsupported _ => []

/-! ### sqlite.rs and mariadb.rs: insert_aprs_line -/

/-- A value bound into a SQL placeholder. -/
inductive SqlValue where
  | s (v : List Char)
  | n (v : Nat)
  | f (v : F64)
  | b (v : Bool)
  | bytes (v : List Nat)
  | null
  deriving DecidableEq

/-- One executed INSERT: target table and bound values in placeholder
order. -/
structure Row where
  table : List Char
  values : List SqlValue
  deriving DecidableEq

/-- Result of one `insert_aprs_line` call: the rows actually written, in
execution order, and the error when the call returned `Err`. -/
structure InsertResult where
  writes : List Row
  error : Option (List Char)
  deriving DecidableEq

/-- The `via` join both backends perform:
`via.iter().map(...to_string() + ", ").collect::<String>()` followed by
`trim_end_matches(", ")`. -/
def viaConcat (via : List (List Char)) : List Char :=
  (via.map (fun e => e ++ [',', ' '])).flatten

/-- `trim_end_matches(", ")` acting on the reversed string: strip leading
`' ', ','` pairs repeatedly. -/
def stripPairsRev : List Char → List Char
  | [] => []
  | [c] => [c]
  | c1 :: c2 :: rest =>
      if c1 = ' ' ∧ c2 = ',' then stripPairsRev rest else c1 :: c2 :: rest

/-- The joined `via` string of sqlite.rs and mariadb.rs `insert_aprs_line`. -/
def viaJoin (via : List (List Char)) : List Char :=
  (stripPairsRev (viaConcat via).reverse).reverse

/-- Plain comma-space interleaving of a list of strings, in order. -/
def joinCommaSpace : List (List Char) → List Char
  | [] => []
  | [e] => e
  | e :: e2 :: rest => e ++ ',' :: ' ' :: joinCommaSpace (e2 :: rest)

/-- Does a list of characters start with the `' ', ','` pair that
`stripPairsRev` removes? -/
def headsCommaSpaceRev : List Char → Bool
  | c1 :: c2 :: _ => c1 == ' ' && c2 == ','
  | _ => false

/-- Does a string end with the exact `", "` occurrence that
`trim_end_matches(", ")` strips? -/
def endsCommaSpace (e : List Char) : Bool := headsCommaSpaceRev e.reverse

def messagesTable : List Char := "messages".data
def positionTable : List Char := "position".data
def statusTable : List Char := "status".data
def micETable : List Char := "MicE".data
def mainDataTable : List Char := "main_data".data

/-- sqlite.rs `SqliteDb::insert_aprs_line`.  The fresh `Uuid::new_v4()`
string and the `Utc::now()` instant are explicit parameters; `parsed_time` is
`now` formatted with `%+`; an absent variant timestamp is bound as the empty
string; the variant row executes before the `main_data` row; an `Unknown`
payload returns `Err("Unknown data type")` before any statement executes. -/
def SqliteDb.insert_aprs_line (uuid : List Char) (now : UtcNow)
    (data : ParsedLine) : InsertResult :=
  let parsed_time :=
    fmtPlusParts now.year now.month now.day now.hour now.minute now.second now.nanos
  let fromv := data.«from»
  let viav := viaJoin data.via
  match data.data with
  | .Position x =>
      let vrow : Row :=
        ⟨positionTable,
         [.s uuid, .s x.«to»,
          (match x.timestamp with
           | some y => .s (Timestamp.fmt_string now y)
           | none => .s []),
          .b x.messaging_supported, .f x.latitude, .f x.longitude,
          .f x.precision, .s [x.symbol_table], .s [x.symbol_code],
          .s x.comment, .s x.cst]⟩
      ⟨[vrow, ⟨mainDataTable, [.s uuid, .s fromv, .s viav, .n 2, .s parsed_time]⟩], none⟩
  | .Message x =>
      let vrow : Row :=
        ⟨messagesTable,
         [.s uuid, .s x.«to», .s x.addressee, .s x.text,
          (match x.id with
           | some y => .bytes y
           | none => .n 0)]⟩
      ⟨[vrow, ⟨mainDataTable, [.s uuid, .s fromv, .s viav, .n 1, .s parsed_time]⟩], none⟩
  | .Status x =>
      let vrow : Row :=
        ⟨statusTable,
         [.s uuid, .s x.«to»,
          (match x.timestamp with
           | some y => .s (Timestamp.fmt_string now y)
           | none => .s []),
          .s x.comment]⟩
      ⟨[vrow, ⟨mainDataTable, [.s uuid, .s fromv, .s viav, .n 3, .s parsed_time]⟩], none⟩
  | .MicE x =>
      let vrow : Row :=
        ⟨micETable,
         [.s uuid, .f x.latitude, .f x.longitude, .f x.precision,
          .s x.message, .n x.speed, .n x.course, .s [x.symbol_table],
          .s [x.symbol_code], .s x.comment, .b x.current]⟩
      ⟨[vrow, ⟨mainDataTable, [.s uuid, .s fromv, .s viav, .n 4, .s parsed_time]⟩], none⟩
  | .Unknown _ => ⟨[], some "Unknown data type".data⟩

/-- mariadb.rs `ConnectionArc::insert_aprs_line`.  Identical dispatch, but
`parsed_time` is `now` formatted `"%Y-%m-%d %H:%M:%S%.6f"`, a present variant
timestamp is rendered with `mariadb_string`, and an absent one is bound as
NULL (`Option::None`). -/
def ConnectionArc.insert_aprs_line (uuid : List Char) (now : UtcNow)
    (data : ParsedLine) : InsertResult :=
  let parsed_time :=
    fmtSqlParts now.year now.month now.day now.hour now.minute now.second now.nanos
  let fromv := data.«from»
  let viav := viaJoin data.via
  match data.data with
  | .Position x =>
      let vrow : Row :=
        ⟨positionTable,
         [.s uuid, .s x.«to»,
          (match x.timestamp with
           | some y => .s (Timestamp.mariadb_string now y)
           | none => .null),
          .b x.messaging_supported, .f x.latitude, .f x.longitude,
          .f x.precision, .s [x.symbol_table], .s [x.symbol_code],
          .s x.comment, .s x.cst]⟩
      ⟨[vrow, ⟨mainDataTable, [.s uuid, .s fromv, .s viav, .n 2, .s parsed_time]⟩], none⟩
  | .Message x =>
      let vrow : Row :=
        ⟨messagesTable,
         [.s uuid, .s x.«to», .s x.addressee, .s x.text,
          (match x.id with
           | some y => .bytes y
           | none => .n 0)]⟩
      ⟨[vrow, ⟨mainDataTable, [.s uuid, .s fromv, .s viav, .n 1, .s parsed_time]⟩], none⟩
  | .Status x =>
      let vrow : Row :=
        ⟨statusTable,
         [.s uuid, .s x.«to»,
          (match x.timestamp with
           | some y => .s (Timestamp.mariadb_string now y)
           | none => .null),
          .s x.comment]⟩
      ⟨[vrow, ⟨mainDataTable, [.s uuid, .s fromv, .s viav, .n 3, .s parsed_time]⟩], none⟩
  | .MicE x =>
      let vrow : Row :=
        ⟨micETable,
         [.s uuid, .f x.latitude, .f x.longitude, .f x.precision,
          .s x.message, .n x.speed, .n x.course, .s [x.symbol_table],
          .s [x.symbol_code], .s x.comment, .b x.current]⟩
      ⟨[vrow, ⟨mainDataTable, [.s uuid, .s fromv, .s viav, .n 4, .s parsed_time]⟩], none⟩
  | .Unknown _ => ⟨[], some "Unknown data type".data⟩

/-- The `type_info` code each backend's variant match produces
(1 = messages, 2 = position, 3 = status, 4 = MicE). -/
def typeCode : ParsedAprsData → Nat
  | .Position _ => 2
  | .Message _ => 1
  | .Status _ => 3
  | .MicE _ => 4
  | .Unknown _ => 0

/-- The variant-specific table each storable payload is written to. -/
def variantTable : ParsedAprsData → List Char
  | .Position _ => positionTable
  | .Message _ => messagesTable
  | .Status _ => statusTable
  | .MicE _ => micETable
  | .Unknown _ => []

/-- Whether a payload variant has a table to be written to. -/
def storableData : ParsedAprsData → Bool
  | .Unknown _ => false
  | _ => true

/-- Blank the timestamp-valued columns (`position.timestamp`,
`status.timestamp`, `main_data.parsed_time`) of a row, to compare the two
backends on every remaining column. -/
def eraseTimestampRow (r : Row) : Row :=
  if r.table = positionTable ∨ r.table = statusTable then
    ⟨r.table, r.values.set 2 .null⟩
  else if r.table = mainDataTable then ⟨r.table, r.values.set 4 .null⟩
  else r

def eraseTimestampCols (rows : List Row) : List Row :=
  rows.map eraseTimestampRow

/-! ### main.rs: worker pool, counters and shutdown structure -/

/-- One sqlite worker of main.rs `db_loop`: it dequeues until the channel is
closed and empty; per dequeued item it calls `insert_aprs_line` once and,
in BOTH the `Ok` and the `Err` match arm, increments the persisted counter;
the item is dropped either way (no retry, no requeue).  `uuidAt`/`nowAt`
supply the per-iteration randomness and clock; `k` indexes the iteration. -/
def db_loop_worker (uuidAt : Nat → List Char) (nowAt : Nat → UtcNow) :
    List ParsedLine → Nat → Nat → Nat
  | [], _, counter => counter
  | pl :: rest, k, counter =>
      match (SqliteDb.insert_aprs_line (uuidAt k) (nowAt k) pl).error with
      | none => db_loop_worker uuidAt nowAt rest (k + 1) (counter + 1)
      | some _ => db_loop_worker uuidAt nowAt rest (k + 1) (counter + 1)

/-- One MariaDB worker of main.rs `mysql_loop`: identical counter discipline
around `ConnectionArc::insert_aprs_line`. -/
def mysql_loop_worker (uuidAt : Nat → List Char) (nowAt : Nat → UtcNow) :
    List ParsedLine → Nat → Nat → Nat
  | [], _, counter => counter
  | pl :: rest, k, counter =>
      match (ConnectionArc.insert_aprs_line (uuidAt k) (nowAt k) pl).error with
      | none => mysql_loop_worker uuidAt nowAt rest (k + 1) (counter + 1)
      | some _ => mysql_loop_worker uuidAt nowAt rest (k + 1) (counter + 1)

/-- main.rs `db_loop` spawns workers 0, 1, 2 and pushes their join handles. -/
def db_loop_handles : List Nat := [0, 1, 2]

/-- main.rs `db_loop` ends with `for (i, handle) in handles` awaiting every
handle it pushed. -/
def db_loop_awaited : List Nat := [0, 1, 2]

/-- main.rs `mysql_loop` also spawns workers 0, 1, 2 and pushes their join
handles into `handles`. -/
def mysql_loop_handles : List Nat := [0, 1, 2]

/-- ...but `mysql_loop` returns without awaiting any of them: the function
ends right after the spawning loop and `handles` is dropped unused. -/
def mysql_loop_awaited : List Nat := []

/-- Items consumed before process exit: a worker whose join handle is awaited
runs until its share of the queue is drained; an unawaited worker is cut off
at whatever progress the scheduler had given it when `main` returned and the
runtime was dropped. -/
def consumedBeforeExit (handles awaited : List Nat)
    (share : Nat → List ParsedLine) (sched : Nat → Nat) : Nat :=
  (handles.map (fun i =>
    if i ∈ awaited then (share i).length else min (sched i) (share i).length)).sum

/-! ### Concrete fixtures used by witnesses and counterexamples -/

/-- A decoder that fails on every line. -/
def decodeNone : List Char → Option ParsedLine := fun _ => none

/-- The end-to-end example record of the spec: a `Status` from `K0HAX`. -/
def plTest : ParsedLine :=
  ⟨"K0HAX".data, ["TCPIP*".data],
   .Status ⟨"APRS".data, none, "Test status comment".data⟩⟩

/-- A decoder that decodes every line to `plTest`. -/
def decodeTest : List Char → Option ParsedLine := fun _ => some plTest

def nowTest : UtcNow := ⟨2026, 10, 12, 1, 2, 3, 0⟩

def uuidTest : List Char := "00000000-0000-4000-8000-000000000000".data

/-- 100 end-of-stream reads, each followed by a server comment line. -/
def hundredEosWithComments : List ReadInput :=
  (List.replicate 100 [ReadInput.eos, ReadInput.line ['#']]).flatten

/-- A queue share giving worker 0 one pending item and the others none. -/
def shareOne : Nat → List ParsedLine := fun i => if i = 0 then [plTest] else []

/-- A scheduler that had given unawaited workers no progress at exit. -/
def schedZero : Nat → Nat := fun _ => 0

/-! ### Helper lemmas -/

theorem takeWhile_dash_append (base ssid : List Char) :
    (base ++ '-' :: ssid).takeWhile (fun c => c != '-') =
      base.takeWhile (fun c => c != '-') := by
  induction base with
  | nil => simp [List.takeWhile]
  | cons c t ih =>
      by_cases hc : c = '-'
      · subst hc; simp [List.takeWhile_cons]
      · simp [List.takeWhile_cons, hc, ih]

theorem runReads_eos_replicate_dies (decode : List Char → Option ParsedLine) :
    ∀ (n c : Nat), 100 < c + n → 1 ≤ n →
      runReads decode c (List.replicate n ReadInput.eos) = none := by
  intro n
  induction n with
  | zero => intro c _ h1; exact absurd h1 (by omega)
  | succ k ih =>
      intro c hsum _
      rw [List.replicate_succ]
      by_cases hcap : c + 1 > 100
      · simp [runReads, read_line, hcap]
      · have hk : 1 ≤ k := by omega
        have := ih (c + 1) (by omega) hk
        simp [runReads, read_line, hcap, this]

/-! ### Claim theorems -/

/-- C1: `generate_passcode` (utils.rs) is the pure function that initialises
a 16-bit accumulator to 0x73E2, strips everything from the first '-' onward,
uppercases the remainder and alternately XORs `(c << 8)` and `c` into the
accumulator, returning its decimal string; hence appending or changing only
an '-SSID' suffix never changes the result, and in particular
`generate_passcode("N0CALL") = generate_passcode("n0call-9")` (both are the
decimal string "13023"). -/
theorem generate_passcode_spec :
    (∀ (base ssid : List Char),
        generate_passcode (base ++ '-' :: ssid) = generate_passcode base) ∧
    generate_passcode "N0CALL".data = generate_passcode "n0call-9".data ∧
    generate_passcode "N0CALL".data = some "13023".data := by
  refine ⟨?_, by decide, by decide⟩
  intro base ssid
  unfold generate_passcode stripSSID
  rw [takeWhile_dash_append]

/-- C2: in `AprsClient::read_line` (client.rs), any read yielding a
non-comment line resets the consecutive end-of-stream count to zero; every
end-of-stream read increments it by one; at count 100 the next end-of-stream
read panics (terminates the process) instead of returning a recoverable
error; and no run survives 101 consecutive end-of-stream reads with no
successful read in between, from any starting count. -/
theorem read_line_eos_threshold :
    (∀ (decode : List Char → Option ParsedLine) (c : Nat) (s : List Char),
        isCommentLine s = false → (read_line decode c (.line s)).fst = 0) ∧
    (∀ (decode : List Char → Option ParsedLine) (c : Nat),
        (read_line decode c .eos).fst = c + 1) ∧
    (∀ decode : List Char → Option ParsedLine,
        read_line decode 100 .eos = (101, .fatal)) ∧
    (∀ (decode : List Char → Option ParsedLine) (c : Nat),
        runReads decode c (List.replicate 101 ReadInput.eos) = none) := by
  refine ⟨?_, ?_, ?_, ?_⟩
  · intro decode c s hs
    cases hd : decode s <;> simp [read_line, hs, hd]
  · intro decode c
    by_cases hcap : c + 1 > 100 <;> simp [read_line, hcap]
  · intro decode
    simp [read_line]
  · intro decode c
    exact runReads_eos_replicate_dies decode 101 c (by omega) (by omega)

/-- Witness for C2 at concrete inputs. -/
theorem read_line_eos_threshold_witness :
    (read_line decodeNone 7 (.line ['x'])).fst = 0 ∧
    (read_line decodeNone 7 .eos).fst = 8 ∧
    read_line decodeNone 100 .eos = (101, .fatal) ∧
    runReads decodeNone 0 (List.replicate 101 ReadInput.eos) = none :=
  ⟨read_line_eos_threshold.1 decodeNone 7 ['x'] (by decide),
   read_line_eos_threshold.2.1 decodeNone 7,
   read_line_eos_threshold.2.2.1 decodeNone,
   read_line_eos_threshold.2.2.2 decodeNone 0⟩

theorem main_loop_run_spec (decode : List Char → Option ParsedLine) :
    ∀ (inputs : List ReadInput) (st st' : MainState),
      main_loop_run decode st inputs = some st' →
      st'.queue = st.queue ++ goodLines decode inputs ∧
      st'.parsed = st.parsed + (goodLines decode inputs).length := by
  intro inputs
  induction inputs with
  | nil =>
      intro st st' h
      simp [main_loop_run] at h
      subst h
      simp [goodLines]
  | cons i rest ih =>
      intro st st' h
      cases i with
      | line s =>
          by_cases hc : isCommentLine s
          · have hstep : main_loop_step decode st (.line s) =
                some ⟨st.errorCount, st.queue, st.parsed⟩ := by
              simp [main_loop_step, read_line, hc]
            rw [main_loop_run, hstep] at h
            have := ih _ _ h
            simpa [goodLines, hc] using this
          · cases hd : decode s with
            | some pl =>
                have hstep : main_loop_step decode st (.line s) =
                    some ⟨0, st.queue ++ [pl], st.parsed + 1⟩ := by
                  simp [main_loop_step, read_line, hc, hd]
                rw [main_loop_run, hstep] at h
                obtain ⟨h1, h2⟩ := ih _ _ h
                have hgl : goodLines decode (ReadInput.line s :: rest) =
                    pl :: goodLines decode rest := by
                  simp [goodLines, hc, hd]
                constructor
                · rw [h1, hgl]; simp
                · rw [h2, hgl, List.length_cons]
                  show st.parsed + 1 + (goodLines decode rest).length =
                    st.parsed + ((goodLines decode rest).length + 1)
                  omega
            | none =>
                have hstep : main_loop_step decode st (.line s) =
                    some ⟨0, st.queue, st.parsed⟩ := by
                  simp [main_loop_step, read_line, hc, hd]
                rw [main_loop_run, hstep] at h
                have := ih _ _ h
                simpa [goodLines, hc, hd] using this
      | frameErr =>
          have hstep : main_loop_step decode st .frameErr =
              some ⟨st.errorCount, st.queue, st.parsed⟩ := by
            simp [main_loop_step, read_line]
          rw [main_loop_run, hstep] at h
          have := ih _ _ h
          simpa [goodLines] using this
      | eos =>
          by_cases hcap : st.errorCount + 1 > 100
          · have hstep : main_loop_step decode st .eos = none := by
              simp [main_loop_step, read_line, hcap]
            rw [main_loop_run, hstep] at h
            exact absurd h (by simp)
          · have hstep : main_loop_step decode st .eos =
                some ⟨st.errorCount + 1, st.queue, st.parsed⟩ := by
              simp [main_loop_step, read_line, hcap]
            rw [main_loop_run, hstep] at h
            have := ih _ _ h
            simpa [goodLines] using this

/-- C3: a line whose first character is '#' makes `read_line` return an
error (never a `ParsedLine`), so `main_loop` neither sends it to the
dispatcher queue nor increments the parsed counter; and across any run of
the main read loop the parsed counter increments exactly once per
non-comment, successfully decoded line — the queue receives exactly those
lines, in order, and framing or decode failures change nothing.  Storage
does not occur in `main_loop` at all, so the count is independent of any
later storage outcome. -/
theorem parsed_counter_per_decoded_line :
    (∀ (decode : List Char → Option ParsedLine) (c : Nat) (s : List Char),
        isCommentLine s = true →
        read_line decode c (.line s) = (c, .commentErr)) ∧
    (∀ (decode : List Char → Option ParsedLine) (st : MainState) (s : List Char),
        isCommentLine s = true →
        main_loop_step decode st (.line s) = some ⟨st.errorCount, st.queue, st.parsed⟩) ∧
    (∀ (decode : List Char → Option ParsedLine) (inputs : List ReadInput)
        (st st' : MainState),
        main_loop_run decode st inputs = some st' →
        st'.queue = st.queue ++ goodLines decode inputs ∧
        st'.parsed = st.parsed + (goodLines decode inputs).length) := by
  refine ⟨?_, ?_, ?_⟩
  · intro decode c s hs
    simp [read_line, hs]
  · intro decode st s hs
    simp [main_loop_step, read_line, hs]
  · intro decode inputs st st' h
    exact main_loop_run_spec decode inputs st st' h

/-- Witness for C3 at concrete inputs: one comment line, one decoded line,
one end-of-stream and one framing error; only the decoded line is queued and
counted. -/
theorem parsed_counter_per_decoded_line_witness :
    read_line decodeTest 5 (.line ['#', 'x']) = (5, .commentErr) ∧
    main_loop_step decodeTest ⟨5, [], 3⟩ (.line ['#', 'x']) = some ⟨5, [], 3⟩ ∧
    ((⟨1, [plTest], 1⟩ : MainState).queue =
        ([] : List ParsedLine) ++ goodLines decodeTest
          [.line ['#', 'x'], .line ['a'], .eos, .frameErr] ∧
      (⟨1, [plTest], 1⟩ : MainState).parsed =
        0 + (goodLines decodeTest
          [.line ['#', 'x'], .line ['a'], .eos, .frameErr]).length) :=
  ⟨parsed_counter_per_decoded_line.1 decodeTest 5 ['#', 'x'] (by decide),
   parsed_counter_per_decoded_line.2.1 decodeTest ⟨5, [], 3⟩ ['#', 'x'] (by decide),
   parsed_counter_per_decoded_line.2.2 decodeTest
     [.line ['#', 'x'], .line ['a'], .eos, .frameErr]
     ⟨0, [], 0⟩ ⟨1, [plTest], 1⟩ (by decide)⟩

/-- C4: in every storage-worker iteration (main.rs `db_loop` and
`mysql_loop`), the persisted counter is incremented exactly once per item
dequeued, in both the success and the error branch of the insert call; a
failed insert is dropped, never retried or requeued, so over a whole queue
the counter's final value is its initial value plus the number of dequeued
items regardless of how many inserts succeed. -/
theorem persisted_counter_per_dequeue :
    ∀ (uuidAt : Nat → List Char) (nowAt : Nat → UtcNow)
      (queue : List ParsedLine) (k counter : Nat),
      db_loop_worker uuidAt nowAt queue k counter = counter + queue.length ∧
      mysql_loop_worker uuidAt nowAt queue k counter = counter + queue.length := by
  intro uuidAt nowAt queue
  induction queue with
  | nil => intro k counter; simp [db_loop_worker, mysql_loop_worker]
  | cons pl rest ih =>
      intro k counter
      constructor
      · have := (ih (k + 1) (counter + 1)).1
        cases hs : (SqliteDb.insert_aprs_line (uuidAt k) (nowAt k) pl).error <;>
          simp [db_loop_worker, hs, this] <;> omega
      · have := (ih (k + 1) (counter + 1)).2
        cases hs : (ConnectionArc.insert_aprs_line (uuidAt k) (nowAt k) pl).error <;>
          simp [mysql_loop_worker, hs, this] <;> omega

/-- C5: for a `ParsedLine` whose payload is the `Unknown` variant, both
backends' `insert_aprs_line` return `Err("Unknown data type")` having
executed no SQL statement at all: the list of performed writes is empty, so
neither a variant-table row nor a `main_data` row exists and the store is
unchanged. -/
theorem insert_unknown_no_writes :
    ∀ (uuid : List Char) (now : UtcNow) (frm raw : List Char)
      (via : List (List Char)),
      SqliteDb.insert_aprs_line uuid now ⟨frm, via, .Unknown raw⟩ =
        ⟨[], some "Unknown data type".data⟩ ∧
      ConnectionArc.insert_aprs_line uuid now ⟨frm, via, .Unknown raw⟩ =
        ⟨[], some "Unknown data type".data⟩ := by
  intro uuid now frm raw via
  exact ⟨rfl, rfl⟩

theorem stripPairsRev_of_no_pair : ∀ l : List Char,
    headsCommaSpaceRev l = false → stripPairsRev l = l
  | [], _ => rfl
  | [_], _ => rfl
  | c1 :: c2 :: rest, h => by
      have h2 : ¬ (c1 = ' ' ∧ c2 = ',') := by
        intro hc
        rw [hc.1, hc.2] at h
        simp [headsCommaSpaceRev] at h
      simp [stripPairsRev, h2]

theorem viaConcat_eq_join : ∀ ys : List (List Char), ys ≠ [] →
    viaConcat ys = joinCommaSpace ys ++ [',', ' ']
  | [], h => absurd rfl h
  | [e], _ => by simp [viaConcat, joinCommaSpace]
  | e :: e2 :: rest, _ => by
      have ih := viaConcat_eq_join (e2 :: rest) (by simp)
      show (e ++ [',', ' ']) ++ viaConcat (e2 :: rest) =
        (e ++ ',' :: ' ' :: joinCommaSpace (e2 :: rest)) ++ [',', ' ']
      rw [ih]
      simp

theorem joinCommaSpace_concat : ∀ (ys : List (List Char)) (b : List Char), ys ≠ [] →
    joinCommaSpace (ys ++ [b]) = joinCommaSpace ys ++ ',' :: ' ' :: b
  | [], _, h => absurd rfl h
  | [e], b, _ => by simp [joinCommaSpace]
  | e :: e2 :: rest, b, _ => by
      have ih := joinCommaSpace_concat (e2 :: rest) b (by simp)
      show e ++ ',' :: ' ' :: joinCommaSpace ((e2 :: rest) ++ [b]) =
        (e ++ ',' :: ' ' :: joinCommaSpace (e2 :: rest)) ++ ',' :: ' ' :: b
      rw [ih]
      simp

theorem headsCommaSpaceRev_append_of : ∀ (rb X : List Char), rb ≠ [] →
    headsCommaSpaceRev rb = false → X.head? ≠ some ',' →
    headsCommaSpaceRev (rb ++ X) = false
  | [], _, hrb, _, _ => absurd rfl hrb
  | [c], X, _, _, hX => by
      cases X with
      | nil => simp [headsCommaSpaceRev]
      | cons x xs =>
          have hx : (x == ',') = false := by
            simp only [beq_eq_false_iff_ne, ne_eq]
            intro hh
            exact hX (by rw [hh]; rfl)
          simp [headsCommaSpaceRev, hx]
  | c1 :: c2 :: t, X, _, hhead, _ => by
      simpa [headsCommaSpaceRev] using hhead

theorem viaJoin_eq_joinCommaSpace (via : List (List Char))
    (h : ∀ e ∈ via, e ≠ [] ∧ endsCommaSpace e = false) :
    viaJoin via = joinCommaSpace via := by
  induction via using List.reverseRecOn with
  | nil => rfl
  | append_singleton ys b _ =>
      obtain ⟨hb1, hb2⟩ := h b (by simp)
      have hrb : b.reverse ≠ [] := by simpa using hb1
      by_cases hys : ys = []
      · subst hys
        show (stripPairsRev (viaConcat [b]).reverse).reverse = joinCommaSpace [b]
        have h1 : (viaConcat [b]).reverse = ' ' :: ',' :: b.reverse := by
          simp [viaConcat]
        rw [h1]
        have h2 : stripPairsRev (' ' :: ',' :: b.reverse) = stripPairsRev b.reverse := by
          simp [stripPairsRev]
        rw [h2, stripPairsRev_of_no_pair _ hb2, List.reverse_reverse]
        rfl
      · have hXhead : ((viaConcat ys).reverse).head? ≠ some ',' := by
          have hrw : (viaConcat ys).reverse = ' ' :: ',' :: (joinCommaSpace ys).reverse := by
            rw [viaConcat_eq_join ys hys]
            simp
          rw [hrw]
          intro hfalse
          exact absurd (Option.some.inj hfalse) (by decide)
        have hnopair : headsCommaSpaceRev (b.reverse ++ (viaConcat ys).reverse) = false :=
          headsCommaSpaceRev_append_of b.reverse ((viaConcat ys).reverse) hrb hb2 hXhead
        have hrev : (viaConcat (ys ++ [b])).reverse =
            ' ' :: ',' :: (b.reverse ++ (viaConcat ys).reverse) := by
          have hAcc : viaConcat (ys ++ [b]) = viaConcat ys ++ (b ++ [',', ' ']) := by
            simp [viaConcat]
          rw [hAcc]
          simp
        have h4 : viaJoin (ys ++ [b]) = viaConcat ys ++ b := by
          unfold viaJoin
          rw [hrev]
          have hstep : stripPairsRev (' ' :: ',' :: (b.reverse ++ (viaConcat ys).reverse)) =
              stripPairsRev (b.reverse ++ (viaConcat ys).reverse) := by
            simp [stripPairsRev]
          rw [hstep, stripPairsRev_of_no_pair _ hnopair]
          simp
        rw [h4, viaConcat_eq_join ys hys, joinCommaSpace_concat ys b hys]
        simp

/-- C6: for every storable `ParsedLine` (Position, Message, Status or MicE),
`SqliteDb::insert_aprs_line` — holding the fresh random identifier and the
clock fixed — writes exactly the variant-specific row followed by exactly one
`main_data` row; both carry the same identifier (the variant row is keyed by
it as its first bound value); the `main_data` row carries the source
callsign, the relay path joined with comma-space separators in exactly the
order received (no reordering, dropping or duplication: `joinCommaSpace` is
the plain in-order interleaving), the numeric type code (1 Message,
2 Position, 3 Status, 4 MicE) and the current processing timestamp.  The
`via` entries are assumed nonempty and not themselves ending in ", ", which
holds for every callsign or q-construct the decoder can produce. -/
theorem insert_storable_rows (uuid : List Char) (now : UtcNow) (frm : List Char)
    (via : List (List Char)) (d : ParsedAprsData)
    (hd : storableData d = true)
    (hvia : ∀ e ∈ via, e ≠ [] ∧ endsCommaSpace e = false) :
    ∃ vrow : Row,
      SqliteDb.insert_aprs_line uuid now ⟨frm, via, d⟩ =
        ⟨[vrow,
          ⟨mainDataTable,
           [.s uuid, .s frm, .s (joinCommaSpace via), .n (typeCode d),
            .s (fmtPlusParts now.year now.month now.day now.hour now.minute
                  now.second now.nanos)]⟩],
         none⟩ ∧
      vrow.table = variantTable d ∧
      vrow.values.head? = some (.s uuid) := by
  have hjoin : viaJoin via = joinCommaSpace via := viaJoin_eq_joinCommaSpace via hvia
  cases d with
  | Unknown raw => simp [storableData] at hd
  | Position x =>
      obtain ⟨xto, xts, xms, xlat, xlon, xprec, xst, xsc, xcm, xcst⟩ := x
      cases xts with
      | none =>
          refine ⟨⟨positionTable,
            [.s uuid, .s xto, .s [], .b xms, .f xlat, .f xlon, .f xprec,
             .s [xst], .s [xsc], .s xcm, .s xcst]⟩, ?_, rfl, rfl⟩
          rw [← hjoin]
          rfl
      | some y =>
          refine ⟨⟨positionTable,
            [.s uuid, .s xto, .s (Timestamp.fmt_string now y), .b xms, .f xlat,
             .f xlon, .f xprec, .s [xst], .s [xsc], .s xcm, .s xcst]⟩, ?_, rfl, rfl⟩
          rw [← hjoin]
          rfl
  | Message x =>
      obtain ⟨xto, xaddr, xtext, xid⟩ := x
      cases xid with
      | none =>
          refine ⟨⟨messagesTable, [.s uuid, .s xto, .s xaddr, .s xtext, .n 0]⟩,
            ?_, rfl, rfl⟩
          rw [← hjoin]
          rfl
      | some y =>
          refine ⟨⟨messagesTable, [.s uuid, .s xto, .s xaddr, .s xtext, .bytes y]⟩,
            ?_, rfl, rfl⟩
          rw [← hjoin]
          rfl
  | Status x =>
      obtain ⟨xto, xts, xcm⟩ := x
      cases xts with
      | none =>
          refine ⟨⟨statusTable, [.s uuid, .s xto, .s [], .s xcm]⟩, ?_, rfl, rfl⟩
          rw [← hjoin]
          rfl
      | some y =>
          refine ⟨⟨statusTable,
            [.s uuid, .s xto, .s (Timestamp.fmt_string now y), .s xcm]⟩,
            ?_, rfl, rfl⟩
          rw [← hjoin]
          rfl
  | MicE x =>
      obtain ⟨xlat, xlon, xprec, xmsg, xspeed, xcourse, xst, xsc, xcm, xcur⟩ := x
      refine ⟨⟨micETable,
        [.s uuid, .f xlat, .f xlon, .f xprec, .s xmsg, .n xspeed, .n xcourse,
         .s [xst], .s [xsc], .s xcm, .b xcur]⟩, ?_, rfl, rfl⟩
      rw [← hjoin]
      rfl

/-- Witness for C6: the spec's end-to-end example record, inserted with a
fixed identifier and clock. -/
theorem insert_storable_rows_witness :
    ∃ vrow : Row,
      SqliteDb.insert_aprs_line uuidTest nowTest
          ⟨"K0HAX".data, ["TCPIP*".data],
           .Status ⟨"APRS".data, none, "Test status comment".data⟩⟩ =
        ⟨[vrow,
          ⟨mainDataTable,
           [.s uuidTest, .s "K0HAX".data, .s (joinCommaSpace ["TCPIP*".data]),
            .n (typeCode (.Status ⟨"APRS".data, none, "Test status comment".data⟩)),
            .s (fmtPlusParts nowTest.year nowTest.month nowTest.day nowTest.hour
                  nowTest.minute nowTest.second nowTest.nanos)]⟩],
         none⟩ ∧
      vrow.table = variantTable (.Status ⟨"APRS".data, none, "Test status comment".data⟩) ∧
      vrow.values.head? = some (.s uuidTest) :=
  insert_storable_rows uuidTest nowTest "K0HAX".data ["TCPIP*".data]
    (.Status ⟨"APRS".data, none, "Test status comment".data⟩)
    (by decide) (by decide)

/-- C7 (code bug evidence): rendering `DDHHMM(5,10,30)` on the current UTC
date 2026-10-12 yields January 5 (`%j` reads the packet's day-of-month as a
day-of-year), not the claimed current-month date 2026-10-05; the `HHMMSS`
path does behave as claimed, taking the current year, month and day. -/
theorem ddhhmm_renders_january :
    Timestamp.fmt_string nowTest (.DDHHMM 5 10 30) =
      "2026-01-05T10:30:00+00:00".data ∧
    Timestamp.mariadb_string nowTest (.DDHHMM 5 10 30) =
      "2026-01-05 10:30:00.000000".data ∧
    Timestamp.fmt_string nowTest (.DDHHMM 5 10 30) ≠
      "2026-10-05T10:30:00+00:00".data ∧
    Timestamp.fmt_string nowTest (.HHMMSS 1 2 3) =
      "2026-10-12T01:02:03+00:00".data := by
  decide

theorem eraseTimestampRow_position (vals : List SqlValue) :
    eraseTimestampRow ⟨positionTable, vals⟩ = ⟨positionTable, vals.set 2 .null⟩ := by
  simp [eraseTimestampRow]

theorem eraseTimestampRow_status (vals : List SqlValue) :
    eraseTimestampRow ⟨statusTable, vals⟩ = ⟨statusTable, vals.set 2 .null⟩ := by
  have h1 : (statusTable = positionTable ∨ statusTable = statusTable) := Or.inr rfl
  simp [eraseTimestampRow, h1]

theorem eraseTimestampRow_mainData (vals : List SqlValue) :
    eraseTimestampRow ⟨mainDataTable, vals⟩ = ⟨mainDataTable, vals.set 4 .null⟩ := by
  have h1 : ¬ (mainDataTable = positionTable ∨ mainDataTable = statusTable) := by decide
  simp [eraseTimestampRow, h1]

theorem eraseTimestampRow_messages (vals : List SqlValue) :
    eraseTimestampRow ⟨messagesTable, vals⟩ = ⟨messagesTable, vals⟩ := by
  have h1 : ¬ (messagesTable = positionTable ∨ messagesTable = statusTable) := by decide
  have h2 : ¬ (messagesTable = mainDataTable) := by decide
  simp [eraseTimestampRow, h1, h2]

theorem eraseTimestampRow_micE (vals : List SqlValue) :
    eraseTimestampRow ⟨micETable, vals⟩ = ⟨micETable, vals⟩ := by
  have h1 : ¬ (micETable = positionTable ∨ micETable = statusTable) := by decide
  have h2 : ¬ (micETable = mainDataTable) := by decide
  simp [eraseTimestampRow, h1, h2]

/-- C8 as stated is false: for a concrete `Status` record, with identical
identifier and clock, the two backends do not bind the same values for every
column — sqlite binds the empty string for the absent timestamp where
MariaDB binds NULL, and the `parsed_time` strings use different formats. -/
theorem backend_rows_differ :
    (SqliteDb.insert_aprs_line uuidTest nowTest plTest).writes ≠
      (ConnectionArc.insert_aprs_line uuidTest nowTest plTest).writes := by
  decide

/-- C8 amended: for every storable `ParsedLine`, holding the random
identifier and the clock fixed, the two `StorageSink` implementations bind
the same logical values for every column of the variant-specific row and of
the `main_data` row EXCEPT the timestamp-valued columns
(`position.timestamp`, `status.timestamp`, `main_data.parsed_time`): there
sqlite binds `fmt_string`-rendered text (`""` when the timestamp is absent)
while MariaDB binds `mariadb_string`-rendered text (NULL when absent).
Neither backend errors on a storable record. -/
theorem backends_agree_except_timestamps (uuid : List Char) (now : UtcNow)
    (pl : ParsedLine) (h : storableData pl.data = true) :
    eraseTimestampCols (SqliteDb.insert_aprs_line uuid now pl).writes =
      eraseTimestampCols (ConnectionArc.insert_aprs_line uuid now pl).writes ∧
    (SqliteDb.insert_aprs_line uuid now pl).error = none ∧
    (ConnectionArc.insert_aprs_line uuid now pl).error = none := by
  obtain ⟨frm, via, d⟩ := pl
  cases d with
  | Unknown raw => simp [storableData] at h
  | Position x =>
      obtain ⟨xto, xts, xms, xlat, xlon, xprec, xst, xsc, xcm, xcst⟩ := x
      cases xts with
      | none =>
          refine ⟨?_, rfl, rfl⟩
          simp [SqliteDb.insert_aprs_line, ConnectionArc.insert_aprs_line,
            eraseTimestampCols, eraseTimestampRow_position,
            eraseTimestampRow_mainData, List.set]
      | some y =>
          refine ⟨?_, rfl, rfl⟩
          simp [SqliteDb.insert_aprs_line, ConnectionArc.insert_aprs_line,
            eraseTimestampCols, eraseTimestampRow_position,
            eraseTimestampRow_mainData, List.set]
  | Message x =>
      obtain ⟨xto, xaddr, xtext, xid⟩ := x
      cases xid with
      | none =>
          refine ⟨?_, rfl, rfl⟩
          simp [SqliteDb.insert_aprs_line, ConnectionArc.insert_aprs_line,
            eraseTimestampCols, eraseTimestampRow_messages,
            eraseTimestampRow_mainData, List.set]
      | some y =>
          refine ⟨?_, rfl, rfl⟩
          simp [SqliteDb.insert_aprs_line, ConnectionArc.insert_aprs_line,
            eraseTimestampCols, eraseTimestampRow_messages,
            eraseTimestampRow_mainData, List.set]
  | Status x =>
      obtain ⟨xto, xts, xcm⟩ := x
      cases xts with
      | none =>
          refine ⟨?_, rfl, rfl⟩
          simp [SqliteDb.insert_aprs_line, ConnectionArc.insert_aprs_line,
            eraseTimestampCols, eraseTimestampRow_status,
            eraseTimestampRow_mainData, List.set]
      | some y =>
          refine ⟨?_, rfl, rfl⟩
          simp [SqliteDb.insert_aprs_line, ConnectionArc.insert_aprs_line,
            eraseTimestampCols, eraseTimestampRow_status,
            eraseTimestampRow_mainData, List.set]
  | MicE x =>
      obtain ⟨xlat, xlon, xprec, xmsg, xspeed, xcourse, xst, xsc, xcm, xcur⟩ := x
      refine ⟨?_, rfl, rfl⟩
      simp [SqliteDb.insert_aprs_line, ConnectionArc.insert_aprs_line,
        eraseTimestampCols, eraseTimestampRow_micE,
        eraseTimestampRow_mainData, List.set]

/-- Witness for C8 amended, at the concrete record of the counterexample. -/
theorem backends_agree_except_timestamps_witness :
    eraseTimestampCols (SqliteDb.insert_aprs_line uuidTest nowTest plTest).writes =
      eraseTimestampCols (ConnectionArc.insert_aprs_line uuidTest nowTest plTest).writes ∧
    (SqliteDb.insert_aprs_line uuidTest nowTest plTest).error = none ∧
    (ConnectionArc.insert_aprs_line uuidTest nowTest plTest).error = none :=
  backends_agree_except_timestamps uuidTest nowTest plTest (by decide)

/-- C9 (code bug evidence): `db_loop` awaits every worker handle it spawned,
so with all three workers joined every item of every worker's share of the
queue is consumed before exit; `mysql_loop` spawns the same workers but its
awaited-handle set is empty, so at process exit an unawaited worker is cut
off at the scheduler's progress — with one item queued and no progress,
nothing is consumed although one item was pending. -/
theorem mysql_loop_join_gap :
    (∀ (share : Nat → List ParsedLine) (sched : Nat → Nat),
        consumedBeforeExit db_loop_handles db_loop_awaited share sched =
          (db_loop_handles.map (fun i => (share i).length)).sum) ∧
    consumedBeforeExit mysql_loop_handles mysql_loop_awaited shareOne schedZero = 0 ∧
    (mysql_loop_handles.map (fun i => (shareOne i).length)).sum = 1 := by
  refine ⟨?_, by decide, by decide⟩
  intro share sched
  simp [consumedBeforeExit, db_loop_handles, db_loop_awaited]

theorem runReads_eos_comments_die (decode : List Char → Option ParsedLine) :
    ∀ (inputs : List ReadInput) (c : Nat),
      (∀ i ∈ inputs,
          i = ReadInput.eos ∨ ∃ s, i = ReadInput.line s ∧ isCommentLine s = true) →
      c ≤ 100 → 100 < c + countEos inputs →
      runReads decode c inputs = none := by
  intro inputs
  induction inputs with
  | nil =>
      intro c _ hc hsum
      exfalso
      simp [countEos] at hsum
      omega
  | cons i rest ih =>
      intro c hall hc hsum
      rcases hall i (by simp) with heos | ⟨s, hline, hcs⟩
      · subst heos
        have hce : countEos (ReadInput.eos :: rest) = countEos rest + 1 := rfl
        by_cases hcap : c + 1 > 100
        · simp [runReads, read_line, hcap]
        · have hrec : runReads decode (c + 1) rest = none := by
            refine ih (c + 1) (fun j hj => hall j (List.mem_cons_of_mem _ hj)) ?_ ?_
            · omega
            · omega
          simp [runReads, read_line, hcap, hrec]
      · subst hline
        have hcl : countEos (ReadInput.line s :: rest) = countEos rest := rfl
        have hrec : runReads decode c rest = none := by
          refine ih c (fun j hj => hall j (List.mem_cons_of_mem _ hj)) hc ?_
          omega
        simp [runReads, read_line, hcs, hrec]

/-- C10 as stated is false at a concrete input: a run of 100 end-of-stream
reads, each followed by a server comment line, ends with the count at 100
and the process alive — the panic fires only when the count EXCEEDS 100,
so a 101st end-of-stream read is needed. -/
theorem hundred_eos_with_comments_survive :
    runReads decodeNone 0 hundredEosWithComments = some 100 ∧
    countEos hundredEosWithComments = 100 ∧
    hundredEosWithComments.length = 200 := by
  decide

/-- C10 amended: the consecutive end-of-stream counter is reset to zero by
reading any non-comment line, including one whose decode fails (still
reported as an error); a comment line leaves the counter unchanged; hence
101 end-of-stream reads interleaved with comment lines (comments never
reset) still escalate to the fatal panic, while an interleaved undecodable
non-comment line prevents escalation (here: 100 eos, one undecodable line,
100 eos survives with the count back at 100). -/
theorem error_count_reset_and_escalation :
    (∀ (decode : List Char → Option ParsedLine) (c : Nat) (s : List Char),
        isCommentLine s = false → decode s = none →
        read_line decode c (.line s) = (0, .decodeErr)) ∧
    (∀ (decode : List Char → Option ParsedLine) (c : Nat) (s : List Char),
        isCommentLine s = true →
        read_line decode c (.line s) = (c, .commentErr)) ∧
    (∀ (decode : List Char → Option ParsedLine) (inputs : List ReadInput) (c : Nat),
        (∀ i ∈ inputs,
            i = ReadInput.eos ∨ ∃ s, i = ReadInput.line s ∧ isCommentLine s = true) →
        c ≤ 100 → 100 < c + countEos inputs →
        runReads decode c inputs = none) ∧
    runReads decodeNone 0
      (List.replicate 100 ReadInput.eos ++ ReadInput.line ['x'] ::
        List.replicate 100 ReadInput.eos) = some 100 := by
  refine ⟨?_, ?_, ?_, by decide⟩
  · intro decode c s hs hd
    simp [read_line, hs, hd]
  · intro decode c s hs
    simp [read_line, hs]
  · intro decode inputs c hall hc hsum
    exact runReads_eos_comments_die decode inputs c hall hc hsum

/-- Witness for C10 amended at concrete inputs: a decode-failing line resets
a count of 9; a comment line keeps it; 100 comment-interleaved eos reads
plus one more eos die; the undecodable-interleaved run survives. -/
theorem error_count_reset_and_escalation_witness :
    read_line decodeNone 9 (.line ['x']) = (0, .decodeErr) ∧
    read_line decodeNone 9 (.line ['#']) = (9, .commentErr) ∧
    runReads decodeNone 0 (hundredEosWithComments ++ [ReadInput.eos]) = none ∧
    runReads decodeNone 0
      (List.replicate 100 ReadInput.eos ++ ReadInput.line ['x'] ::
        List.replicate 100 ReadInput.eos) = some 100 := by
  refine ⟨error_count_reset_and_escalation.1 decodeNone 9 ['x'] (by decide) rfl,
    error_count_reset_and_escalation.2.1 decodeNone 9 ['#'] (by decide),
    error_count_reset_and_escalation.2.2.1 decodeNone _ 0 ?_ (by decide) (by decide),
    error_count_reset_and_escalation.2.2.2⟩
  intro i hi
  rcases List.mem_append.mp hi with h1 | h2
  · rcases List.mem_flatten.mp h1 with ⟨bl, hbl, hibl⟩
    rw [List.eq_of_mem_replicate hbl] at hibl
    simp at hibl
    rcases hibl with heos | hcmt
    · exact Or.inl heos
    · exact Or.inr ⟨['#'], hcmt, rfl⟩
  · simp at h2
    exact Or.inl h2
